import Mathlib

/-!
Verification of the greedy decode loop `translate_sentence` from
`chatbot_model.py`.

The encoder and decoder are opaque parameters of the loop: the encoder maps
an input token-id sequence to a recurrent state, and the decoder maps one
token id plus a state to a probability distribution over the vocabulary
together with an updated state.  Probabilities are modelled as values in an
arbitrary linear order (the code compares floats only with `>` inside
`np.argmax`).  `np.argmax` returns the index of the first occurrence of the
maximum, which is captured by `npArgmax` below.  The decode loop is embedded
as `decodeLoop`, which additionally counts decoder invocations so that the
step budget can be stated.
-/

namespace ChatbotModel

/-- `MAX_LEN = 20` from `chatbot_model.py`. -/
def MAX_LEN : Nat := 20

/-- Scan of `np.argmax`: walk the remaining list `xs` whose head sits at
index `i` of the full vector, keeping the index `besti` and value `bestv` of
the best element seen so far, updating only on a strictly larger value (so
the first occurrence of the maximum wins). -/
def argmaxAux {α : Type} [LinearOrder α] : List α → Nat → Nat → α → Nat
  | [], _, besti, _ => besti
  | x :: xs, i, besti, bestv =>
    if bestv < x then argmaxAux xs (i + 1) i x
    else argmaxAux xs (i + 1) besti bestv

/-- `np.argmax` on a vector: index of the first occurrence of the maximum
(0 on the empty vector, which does not arise for a real distribution). -/
def npArgmax {α : Type} [LinearOrder α] : List α → Nat
  | [] => 0
  | x :: xs => argmaxAux xs 1 0 x

/-- `bos = word2idx.get('<bos>', 1)` from `translate_sentence`. -/
def bosId (word2idx : String → Option Nat) : Nat :=
  (word2idx "<bos>").getD 1

/-- `eos = word2idx.get('<eos>', 2)` from `translate_sentence`. -/
def eosId (word2idx : String → Option Nat) : Nat :=
  (word2idx "<eos>").getD 2

/-- The `for _ in range(max_len)` loop of `translate_sentence`.  State per
iteration: remaining fuel, current token (`target_seq`), decoder state
(`states_value`), accumulated surface tokens (`output_sentence`).  Each
iteration calls the decoder once, takes `np.argmax` of the distribution,
breaks if the sampled id is `eos` or `0`, and otherwise appends
`idx2word.get(sampled, '<unk>')` and feeds the sampled id and new state back.
The second component of the result counts decoder invocations. -/
def decodeLoop {σ α : Type} [LinearOrder α]
    (decoder_model : Nat → σ → List α × σ) (eos : Nat)
    (idx2word : Nat → Option String) :
    Nat → Nat → σ → List String → List String × Nat
  | 0, _, _, acc => (acc, 0)
  | fuel + 1, tok, st, acc =>
    let step := decoder_model tok st
    let sampled := npArgmax step.1
    if sampled = eos ∨ sampled = 0 then (acc, 1)
    else
      let rest := decodeLoop decoder_model eos idx2word fuel sampled step.2
        (acc ++ [(idx2word sampled).getD "<unk>"])
      (rest.1, rest.2 + 1)

/-- The whole of `translate_sentence` up to the final string join: runs the
encoder once, seeds the loop with the `<bos>` id and an empty sentence, and
returns the accumulated surface tokens together with the number of decoder
invocations. -/
def translateRun {σ α : Type} [LinearOrder α] (input_seq : List Nat)
    (encoder_model : List Nat → σ) (decoder_model : Nat → σ → List α × σ)
    (word2idx : String → Option Nat) (idx2word : Nat → Option String)
    (max_len : Nat) : List String × Nat :=
  decodeLoop decoder_model (eosId word2idx) idx2word max_len
    (bosId word2idx) (encoder_model input_seq) []

/-- `translate_sentence` from `chatbot_model.py`:
`return ' '.join(output_sentence)`. -/
def translate_sentence {σ α : Type} [LinearOrder α] (input_seq : List Nat)
    (encoder_model : List Nat → σ) (decoder_model : Nat → σ → List α × σ)
    (word2idx : String → Option Nat) (idx2word : Nat → Option String)
    (max_len : Nat) : String :=
  String.intercalate " "
    (translateRun input_seq encoder_model decoder_model word2idx idx2word
      max_len).1

/-! Concrete instances used by witnesses. -/

/-- Example `word2idx`: maps the two reserved markers to their usual ids. -/
def exVocabW : String → Option Nat
  | "<bos>" => some 1
  | "<eos>" => some 2
  | _ => none

/-- Example `idx2word`: the four-word vocabulary from the spec scenarios. -/
def exVocabI : Nat → Option String
  | 1 => some "<bos>"
  | 2 => some "<eos>"
  | 3 => some "hi"
  | 4 => some "there"
  | _ => none

/-- A `word2idx` with no entries at all. -/
def emptyVocabW : String → Option Nat := fun _ => none

/-- An encoder whose state carries no information. -/
def unitEncoder : List Nat → Unit := fun _ => ()

/-- An encoder producing a step counter as state. -/
def exEncoder : List Nat → Nat := fun _ => 0

/-- A decoder that always assigns maximum probability to id 2. -/
def stopDecoder : Nat → Unit → List Nat × Unit := fun _ _ => ([0, 0, 1], ())

/-- A decoder whose argmax picks are 3, then 4, then 2, driven by a step
counter held in the state. -/
def exDecoder : Nat → Nat → List Nat × Nat
  | _, 0 => ([0, 0, 0, 1, 0], 1)
  | _, 1 => ([0, 0, 0, 0, 1], 2)
  | _, _ => ([0, 0, 1, 0, 0], 3)

/-- A decoder that assigns the maximum probability to both id 1 and id 2. -/
def tieDecoder : Nat → Unit → List Nat × Unit := fun _ _ => ([0, 1, 1, 0], ())

/-- A decoder that always picks id 3, never 0 or the eos id. -/
def busyDecoder : Nat → Unit → List Nat × Unit :=
  fun _ _ => ([0, 0, 0, 1], ())

/-- A decoder that always picks id 7, an id absent from `exVocabI`. -/
def unkDecoder : Nat → Unit → List Nat × Unit :=
  fun _ _ => ([0, 0, 0, 0, 0, 0, 0, 1], ())

/-! Helper lemmas. -/

/-- The loop performs at most `fuel` decoder invocations. -/
theorem decodeLoop_calls_le {σ α : Type} [LinearOrder α]
    (dm : Nat → σ → List α × σ) (eos : Nat) (iw : Nat → Option String) :
    ∀ (fuel tok : Nat) (st : σ) (acc : List String),
      (decodeLoop dm eos iw fuel tok st acc).2 ≤ fuel
  | 0, _, _, _ => Nat.le_refl 0
  | fuel + 1, tok, st, acc => by
    simp only [decodeLoop]
    by_cases h : npArgmax (dm tok st).1 = eos ∨ npArgmax (dm tok st).1 = 0
    · simp only [h, if_true]
      exact Nat.succ_le_succ (Nat.zero_le fuel)
    · simp only [h, if_false]
      exact Nat.succ_le_succ (decodeLoop_calls_le dm eos iw fuel _ _ _)

/-- Full behaviour of the `np.argmax` scan: either no element of `xs`
strictly exceeds the incumbent value, and the incumbent index is returned,
or the scan returns `i + k` for the first index `k` of `xs` whose value
strictly exceeds the incumbent and is maximal in `xs`, with all earlier
elements strictly below it. -/
theorem argmaxAux_spec {α : Type} [LinearOrder α] :
    ∀ (xs : List α) (i besti : Nat) (bestv : α),
      (argmaxAux xs i besti bestv = besti ∧
        ∀ k (hk : k < xs.length), xs.get ⟨k, hk⟩ ≤ bestv) ∨
      (∃ k, ∃ hk : k < xs.length,
        argmaxAux xs i besti bestv = i + k ∧ bestv < xs.get ⟨k, hk⟩ ∧
        (∀ j (hj : j < xs.length), xs.get ⟨j, hj⟩ ≤ xs.get ⟨k, hk⟩) ∧
        (∀ j (hj : j < xs.length), j < k → xs.get ⟨j, hj⟩ < xs.get ⟨k, hk⟩))
  | [], i, besti, bestv => Or.inl ⟨rfl, fun k hk => absurd hk (by simp)⟩
  | x :: xs, i, besti, bestv => by
    by_cases hx : bestv < x
    · rcases argmaxAux_spec xs (i + 1) i x with
        ⟨heq, hall⟩ | ⟨k, hk, heq, hgt, hall, hfirst⟩
      · refine Or.inr ⟨0, by simp, ?_, hx, ?_, ?_⟩
        · simpa [argmaxAux, hx] using heq
        · intro j hj
          cases j with
          | zero => exact le_refl _
          | succ j => exact hall j (Nat.lt_of_succ_lt_succ hj)
        · intro j hj hj0
          exact absurd hj0 (Nat.not_lt_zero j)
      · refine Or.inr ⟨k + 1, Nat.succ_lt_succ hk, ?_, lt_trans hx hgt,
          ?_, ?_⟩
        · simpa [argmaxAux, hx, Nat.add_assoc, Nat.add_comm 1 k] using heq
        · intro j hj
          cases j with
          | zero => exact le_of_lt hgt
          | succ j => exact hall j (Nat.lt_of_succ_lt_succ hj)
        · intro j hj hjk
          cases j with
          | zero => exact hgt
          | succ j =>
            exact hfirst j (Nat.lt_of_succ_lt_succ hj)
              (Nat.lt_of_succ_lt_succ hjk)
    · rcases argmaxAux_spec xs (i + 1) besti bestv with
        ⟨heq, hall⟩ | ⟨k, hk, heq, hgt, hall, hfirst⟩
      · refine Or.inl ⟨by simpa [argmaxAux, hx] using heq, ?_⟩
        intro j hj
        cases j with
        | zero => exact le_of_not_lt hx
        | succ j => exact hall j (Nat.lt_of_succ_lt_succ hj)
      · refine Or.inr ⟨k + 1, Nat.succ_lt_succ hk, ?_, hgt, ?_, ?_⟩
        · simpa [argmaxAux, hx, Nat.add_assoc, Nat.add_comm 1 k] using heq
        · intro j hj
          cases j with
          | zero => exact le_of_lt (lt_of_le_of_lt (le_of_not_lt hx) hgt)
          | succ j => exact hall j (Nat.lt_of_succ_lt_succ hj)
        · intro j hj hjk
          cases j with
          | zero => exact lt_of_le_of_lt (le_of_not_lt hx) hgt
          | succ j =>
            exact hfirst j (Nat.lt_of_succ_lt_succ hj)
              (Nat.lt_of_succ_lt_succ hjk)

/-! Claim theorems. -/

/-- Claim C1: if at some decode step the argmax-selected id equals the eos id
or the pad id 0, the loop stops at that step: the accumulated sentence is
returned unchanged and exactly one decoder invocation (the one that produced
the stop) is made from that point on. -/
theorem translate_stops_on_eos_or_pad {σ α : Type} [LinearOrder α]
    (dm : Nat → σ → List α × σ) (eos : Nat) (iw : Nat → Option String)
    (fuel tok : Nat) (st : σ) (acc : List String)
    (h : npArgmax (dm tok st).1 = eos ∨ npArgmax (dm tok st).1 = 0) :
    decodeLoop dm eos iw (fuel + 1) tok st acc = (acc, 1) := by
  simp only [decodeLoop, h, if_true]

theorem translate_stops_on_eos_or_pad_witness :
    decodeLoop stopDecoder 2 exVocabI 5 1 () ["a"] = (["a"], 1) :=
  translate_stops_on_eos_or_pad stopDecoder 2 exVocabI 4 1 () ["a"]
    (Or.inl (by decide))

/-- Claim C2: the id selected at each decode step, `npArgmax` of the
decoder's distribution (`decodeLoop` applies `npArgmax` to the distribution
by definition), is a valid index carrying the highest probability, and any
index tied for the highest probability is at least the selected one (lowest
id wins ties). -/
theorem translate_selects_argmax {α : Type} [LinearOrder α] (l : List α)
    (hne : l ≠ []) :
    ∃ hm : npArgmax l < l.length,
      (∀ i (hi : i < l.length), l.get ⟨i, hi⟩ ≤ l.get ⟨npArgmax l, hm⟩) ∧
      (∀ i (hi : i < l.length),
        l.get ⟨i, hi⟩ = l.get ⟨npArgmax l, hm⟩ → npArgmax l ≤ i) := by
  match l, hne with
  | x :: xs, _ =>
    rcases argmaxAux_spec xs 1 0 x with
      ⟨heq, hall⟩ | ⟨k, hk, heq, hgt, hall, hfirst⟩
    · have hm : npArgmax (x :: xs) = 0 := heq
      rw [hm]
      refine ⟨Nat.succ_pos xs.length, ?_, ?_⟩
      · intro i hi
        cases i with
        | zero => exact le_refl x
        | succ i => exact hall i (Nat.lt_of_succ_lt_succ hi)
      · intro i hi _
        exact Nat.zero_le i
    · have hm : npArgmax (x :: xs) = k + 1 := by
        have : npArgmax (x :: xs) = argmaxAux xs 1 0 x := rfl
        rw [this, heq, Nat.add_comm]
      rw [hm]
      refine ⟨Nat.succ_lt_succ hk, ?_, ?_⟩
      · intro i hi
        cases i with
        | zero => exact le_of_lt hgt
        | succ i => exact hall i (Nat.lt_of_succ_lt_succ hi)
      · intro i hi htie
        by_contra hcon
        have hik : i < k + 1 := Nat.lt_of_not_le (fun h => hcon h)
        cases i with
        | zero =>
          exact absurd htie (ne_of_lt hgt)
        | succ i =>
          exact absurd htie
            (ne_of_lt (hfirst i (Nat.lt_of_succ_lt_succ hi)
              (Nat.lt_of_succ_lt_succ hik)))

theorem translate_selects_argmax_witness :
    ∃ hm : npArgmax [0, 3, 3, 1] < ([0, 3, 3, 1] : List Nat).length,
      (∀ i (hi : i < ([0, 3, 3, 1] : List Nat).length),
        ([0, 3, 3, 1] : List Nat).get ⟨i, hi⟩ ≤
          ([0, 3, 3, 1] : List Nat).get ⟨npArgmax [0, 3, 3, 1], hm⟩) ∧
      (∀ i (hi : i < ([0, 3, 3, 1] : List Nat).length),
        ([0, 3, 3, 1] : List Nat).get ⟨i, hi⟩ =
            ([0, 3, 3, 1] : List Nat).get ⟨npArgmax [0, 3, 3, 1], hm⟩ →
          npArgmax [0, 3, 3, 1] ≤ i) :=
  translate_selects_argmax [0, 3, 3, 1] (by decide)

/-- Claim C3: `translate_sentence` terminates (it is a total function of its
arguments) and invokes the decoder at most `max_len` times. -/
theorem translate_terminates_within_budget {σ α : Type} [LinearOrder α]
    (input_seq : List Nat) (enc : List Nat → σ)
    (dm : Nat → σ → List α × σ) (w : String → Option Nat)
    (iw : Nat → Option String) (max_len : Nat) :
    (translateRun input_seq enc dm w iw max_len).2 ≤ max_len :=
  decodeLoop_calls_le dm (eosId w) iw max_len (bosId w) (enc input_seq) []

/-- If the decoder's argmax pick is never the eos id nor 0, the loop consumes
all of its fuel, appending one surface token per iteration. -/
theorem decodeLoop_length_full {σ α : Type} [LinearOrder α]
    (dm : Nat → σ → List α × σ) (eos : Nat) (iw : Nat → Option String)
    (h : ∀ (tok : Nat) (st : σ),
      npArgmax (dm tok st).1 ≠ eos ∧ npArgmax (dm tok st).1 ≠ 0) :
    ∀ (fuel tok : Nat) (st : σ) (acc : List String),
      (decodeLoop dm eos iw fuel tok st acc).1.length = acc.length + fuel
  | 0, _, _, _ => rfl
  | fuel + 1, tok, st, acc => by
    have hcond :
        ¬(npArgmax (dm tok st).1 = eos ∨ npArgmax (dm tok st).1 = 0) := by
      rcases h tok st with ⟨h1, h2⟩
      rintro (he | hz)
      · exact h1 he
      · exact h2 hz
    simp only [decodeLoop, hcond, if_false]
    rw [decodeLoop_length_full dm eos iw h fuel _ _ _]
    simp [List.length_append]
    omega

/-- Claim C4: if the decoder's argmax pick is never the eos id nor the pad
id 0, `translate_sentence` produces exactly `max_len` surface tokens, joined
with single spaces into the returned string. -/
theorem translate_full_budget_length {σ α : Type} [LinearOrder α]
    (input_seq : List Nat) (enc : List Nat → σ)
    (dm : Nat → σ → List α × σ) (w : String → Option Nat)
    (iw : Nat → Option String) (max_len : Nat)
    (h : ∀ (tok : Nat) (st : σ),
      npArgmax (dm tok st).1 ≠ eosId w ∧ npArgmax (dm tok st).1 ≠ 0) :
    (translateRun input_seq enc dm w iw max_len).1.length = max_len ∧
    translate_sentence input_seq enc dm w iw max_len =
      String.intercalate " "
        (translateRun input_seq enc dm w iw max_len).1 := by
  constructor
  · have hlen := decodeLoop_length_full dm (eosId w) iw h max_len (bosId w)
      (enc input_seq) []
    simpa [translateRun] using hlen
  · rfl

theorem translate_full_budget_length_witness :
    (translateRun [0, 0] unitEncoder busyDecoder exVocabW exVocabI 5).1.length
        = 5 ∧
    translate_sentence [0, 0] unitEncoder busyDecoder exVocabW exVocabI 5 =
      String.intercalate " "
        (translateRun [0, 0] unitEncoder busyDecoder exVocabW exVocabI 5).1 :=
  translate_full_budget_length [0, 0] unitEncoder busyDecoder exVocabW
    exVocabI 5 (fun _ _ =>
      (by decide : npArgmax ([0, 0, 0, 1] : List Nat) ≠ eosId exVocabW ∧
        npArgmax ([0, 0, 0, 1] : List Nat) ≠ 0))

/-- Claim C5, amended: if on the first decode step the argmax-selected id
equals the eos id (so the eos id holds the maximum probability and no
lower-numbered id ties with it), `translate_sentence` returns the empty
string.  The original claim also covered distributions in which a
lower-numbered id ties with the eos id for the maximum; there `np.argmax`
returns the lower id and decoding continues, see the counterexample. -/
theorem translate_eos_first_pick_empty {σ α : Type} [LinearOrder α]
    (input_seq : List Nat) (enc : List Nat → σ)
    (dm : Nat → σ → List α × σ) (w : String → Option Nat)
    (iw : Nat → Option String) (max_len : Nat)
    (h : npArgmax (dm (bosId w) (enc input_seq)).1 = eosId w) :
    translate_sentence input_seq enc dm w iw max_len = "" := by
  cases max_len with
  | zero => rfl
  | succ m =>
    have hstop :
        decodeLoop dm (eosId w) iw (m + 1) (bosId w) (enc input_seq)
          ([] : List String) = ([], 1) := by
      simp only [decodeLoop, h, eq_self_iff_true, true_or, if_true]
    show String.intercalate " "
      (decodeLoop dm (eosId w) iw (m + 1) (bosId w) (enc input_seq) []).1 = ""
    rw [hstop]
    rfl

theorem translate_eos_first_pick_empty_witness :
    translate_sentence [0, 0] unitEncoder stopDecoder exVocabW exVocabI 20
      = "" :=
  translate_eos_first_pick_empty [0, 0] unitEncoder stopDecoder exVocabW
    exVocabI 20 (by decide)

/-- Counterexample to claim C5 as stated: on the first step the decoder
assigns the maximum probability (value 1) to the eos id 2, but id 1 is tied
with it, so the argmax pick is 1 and the returned string is not empty. -/
theorem translate_eos_tie_counterexample :
    (tieDecoder (bosId exVocabW) (unitEncoder [0, 0])).1 = [0, 1, 1, 0] ∧
    List.maximum [0, 1, 1, 0] =
      some (([0, 1, 1, 0] : List Nat).getD (eosId exVocabW) 0) ∧
    translate_sentence [0, 0] unitEncoder tieDecoder exVocabW exVocabI 1
      ≠ "" :=
  ⟨rfl, by decide, by decide⟩

/-- Claim C6: with vocabulary 1 ↦ bos marker, 2 ↦ eos marker, 3 ↦ hi,
4 ↦ there, a decoder whose successive argmax picks are 3, 4, 2 makes
`translate_sentence` return exactly the space-joined string of the two
surface tokens. -/
theorem translate_join_scenario :
    translate_sentence [0, 0] exEncoder exDecoder exVocabW exVocabI 20 =
      "hi there" := by
  decide

/-- Claim C9: `translate_sentence` is deterministic: two invocations with
identical inputs (same model, vocabulary, budget) return identical output
strings. -/
theorem translate_deterministic {σ α : Type} [LinearOrder α]
    (input_seq1 input_seq2 : List Nat) (enc : List Nat → σ)
    (dm : Nat → σ → List α × σ) (w : String → Option Nat)
    (iw : Nat → Option String) (max_len : Nat)
    (h : input_seq1 = input_seq2) :
    translate_sentence input_seq1 enc dm w iw max_len =
      translate_sentence input_seq2 enc dm w iw max_len := by
  rw [h]

theorem translate_deterministic_witness :
    translate_sentence [1, 2] exEncoder exDecoder exVocabW exVocabI 20 =
      translate_sentence [1, 2] exEncoder exDecoder exVocabW exVocabI 20 :=
  translate_deterministic [1, 2] [1, 2] exEncoder exDecoder exVocabW exVocabI
    20 rfl

/-- Claim C7: when the selected id is absent from `idx2word` (and is not a
stop id), the step appends the literal fallback marker and decoding
continues with the selected id and the new decoder state; no error is
raised (the loop is a total function). -/
theorem translate_unknown_id_appends_unk {σ α : Type} [LinearOrder α]
    (dm : Nat → σ → List α × σ) (eos : Nat) (iw : Nat → Option String)
    (fuel tok : Nat) (st : σ) (acc : List String)
    (hmiss : iw (npArgmax (dm tok st).1) = none)
    (hne : npArgmax (dm tok st).1 ≠ eos)
    (hnz : npArgmax (dm tok st).1 ≠ 0) :
    decodeLoop dm eos iw (fuel + 1) tok st acc =
      ((decodeLoop dm eos iw fuel (npArgmax (dm tok st).1) (dm tok st).2
          (acc ++ ["<unk>"])).1,
        (decodeLoop dm eos iw fuel (npArgmax (dm tok st).1) (dm tok st).2
          (acc ++ ["<unk>"])).2 + 1) := by
  simp only [decodeLoop, hne, hnz, or_self, if_false, hmiss,
    Option.getD_none]

theorem translate_unknown_id_appends_unk_witness :
    decodeLoop unkDecoder 2 exVocabI 1 1 () [] = (["<unk>"], 1) := by
  rw [translate_unknown_id_appends_unk unkDecoder 2 exVocabI 0 1 () []
    (by decide) (by decide) (by decide)]
  decide

/-- Claim C8: when `word2idx` has no entry for the bos marker the loop is
seeded with id 1, and when it has no entry for the eos marker the stop id is
2; decoding proceeds silently with those defaults. -/
theorem translate_missing_marker_defaults {σ α : Type} [LinearOrder α]
    (input_seq : List Nat) (enc : List Nat → σ)
    (dm : Nat → σ → List α × σ) (w : String → Option Nat)
    (iw : Nat → Option String) (max_len : Nat)
    (hbos : w "<bos>" = none) (heos : w "<eos>" = none) :
    bosId w = 1 ∧ eosId w = 2 ∧
    translate_sentence input_seq enc dm w iw max_len =
      String.intercalate " "
        (decodeLoop dm 2 iw max_len 1 (enc input_seq) []).1 := by
  refine ⟨by simp [bosId, hbos], by simp [eosId, heos], ?_⟩
  simp [translate_sentence, translateRun, bosId, eosId, hbos, heos]

theorem translate_missing_marker_defaults_witness :
    bosId emptyVocabW = 1 ∧ eosId emptyVocabW = 2 ∧
    translate_sentence [0] exEncoder exDecoder emptyVocabW exVocabI 3 =
      String.intercalate " "
        (decodeLoop exDecoder 2 exVocabI 3 1 (exEncoder [0]) []).1 :=
  translate_missing_marker_defaults [0] exEncoder exDecoder emptyVocabW
    exVocabI 3 rfl rfl

/-- Every surface token the loop adds to `acc` is the rendering (with the
fallback marker for unknown ids) of a selected id that is neither 0 nor the
eos id. -/
theorem decodeLoop_mem_source {σ α : Type} [LinearOrder α]
    (dm : Nat → σ → List α × σ) (eos : Nat) (iw : Nat → Option String) :
    ∀ (fuel tok : Nat) (st : σ) (acc : List String) (s : String),
      s ∈ (decodeLoop dm eos iw fuel tok st acc).1 →
      s ∈ acc ∨ ∃ j : Nat, j ≠ 0 ∧ j ≠ eos ∧ s = (iw j).getD "<unk>"
  | 0, _, _, acc, s => fun hs => Or.inl hs
  | fuel + 1, tok, st, acc, s => by
    intro hs
    by_cases hcond : npArgmax (dm tok st).1 = eos ∨ npArgmax (dm tok st).1 = 0
    · simp only [decodeLoop, hcond, if_true] at hs
      exact Or.inl hs
    · simp only [decodeLoop, hcond, if_false] at hs
      rcases decodeLoop_mem_source dm eos iw fuel _ _ _ s hs with hmem | hex
      · rcases List.mem_append.mp hmem with h1 | h2
        · exact Or.inl h1
        · refine Or.inr ⟨npArgmax (dm tok st).1, ?_, ?_, ?_⟩
          · exact fun h0 => hcond (Or.inr h0)
          · exact fun he => hcond (Or.inl he)
          · exact List.mem_singleton.mp h2
      · exact Or.inr hex

/-- Claim C10: loop invariant consequence: every surface token in the result
of `translateRun` (which seeds the loop with the bos id, an empty sentence,
and the encoder state, and feeds each selected id and updated state pair
back into the single-token decoder) is the rendering of a selected id that
is neither 0 nor the eos id. -/
theorem translate_output_token_invariant {σ α : Type} [LinearOrder α]
    (input_seq : List Nat) (enc : List Nat → σ)
    (dm : Nat → σ → List α × σ) (w : String → Option Nat)
    (iw : Nat → Option String) (max_len : Nat) (s : String)
    (hs : s ∈ (translateRun input_seq enc dm w iw max_len).1) :
    ∃ j : Nat, j ≠ 0 ∧ j ≠ eosId w ∧ s = (iw j).getD "<unk>" := by
  rcases decodeLoop_mem_source dm (eosId w) iw max_len (bosId w)
      (enc input_seq) [] s hs with h | h
  · exact absurd h (List.not_mem_nil s)
  · exact h

theorem translate_output_token_invariant_witness :
    ∃ j : Nat, j ≠ 0 ∧ j ≠ eosId exVocabW ∧
      "hi" = (exVocabI j).getD "<unk>" :=
  translate_output_token_invariant [0, 0] exEncoder exDecoder exVocabW
    exVocabI 20 "hi" (by decide)

end ChatbotModel
